import Mathlib

/-!
Verification of the dsb tabular view engine: the query parser and row
evaluator (windows/queryParser.go), the filter-application state update
(windows/dataBrowser.go, applyFilters), the composite filter
(magnus-fyne-datatable/internal/filter/composite.go), and the export
reconstruction (windows/dataBrowser.go, createFilteredArrowTable /
appendValueToBuilder).

Strings are modelled as lists of characters.  Go standard-library string
functions (strings.ToLower, ToUpper, EqualFold, TrimSpace, Contains,
Index, Compare, Trim and strconv.ParseFloat) are modelled over the ASCII
fragment actually exercised by the queries: case mapping is ASCII case
mapping, comparison is code-point-wise, and ParseFloat is modelled as an
exact decimal-literal parser into rationals (sign, digits, optional
fraction, optional exponent; float64 rounding, hex floats, underscores
and inf/nan names are outside the model).
-/

/-- Strings of the Go program, as lists of characters. -/
abbrev GoStr := List Char

/-- Conversion from Lean string literals into the Go string model. -/
def gs (s : String) : GoStr := s.toList

/-- ASCII lower-casing of one character (model of Go strings.ToLower per rune). -/
def lowerChar (c : Char) : Char :=
  if 65 ≤ c.toNat ∧ c.toNat ≤ 90 then Char.ofNat (c.toNat + 32) else c

/-- ASCII upper-casing of one character (model of Go strings.ToUpper per rune). -/
def upperChar (c : Char) : Char :=
  if 97 ≤ c.toNat ∧ c.toNat ≤ 122 then Char.ofNat (c.toNat - 32) else c

/-- Model of Go strings.ToLower. -/
def lowerStr (s : GoStr) : GoStr := s.map lowerChar

/-- Model of Go strings.ToUpper. -/
def upperStr (s : GoStr) : GoStr := s.map upperChar

/-- Model of Go unicode.IsSpace restricted to the ASCII space characters
(space, tab, newline, vertical tab, form feed, carriage return). -/
def isUnicodeSpace (c : Char) : Bool :=
  c.toNat = 32 || c.toNat = 9 || c.toNat = 10 || c.toNat = 11 || c.toNat = 12 || c.toNat = 13

/-- Model of Go strings.TrimSpace. -/
def trimSpace (s : GoStr) : GoStr :=
  ((s.dropWhile isUnicodeSpace).reverse.dropWhile isUnicodeSpace).reverse

/-- Model of Go strings.EqualFold (ASCII simple folding). -/
def eqFold (a b : GoStr) : Bool := lowerStr a == lowerStr b

/-- Model of Go strings.Contains: does sub occur as a contiguous substring of s. -/
def strContains (s sub : GoStr) : Bool :=
  match s with
  | [] => sub.isEmpty
  | c :: t => sub.isPrefixOf (c :: t) || strContains t sub

/-- Helper for goIndex: first position at or after i where pat occurs in s. -/
def goIndexAux (s pat : GoStr) (i : Nat) : Option Nat :=
  if pat.isPrefixOf s then some i
  else
    match s with
    | [] => none
    | _ :: t => goIndexAux t pat (i + 1)

/-- Model of Go strings.Index: position of the first occurrence of pat in s. -/
def goIndex (s pat : GoStr) : Option Nat := goIndexAux s pat 0

/-- Model of Go strings.Compare on lowered strings: code-point-wise
lexicographic three-way comparison returning -1, 0 or 1. -/
def strCompare : GoStr → GoStr → Int
  | [], [] => 0
  | [], _ :: _ => -1
  | _ :: _, [] => 1
  | a :: as, b :: bs =>
    if a.toNat < b.toNat then -1
    else if b.toNat < a.toNat then 1
    else strCompare as bs

/-- Quote characters trimmed from comparison values: double quote (34) and
single quote (39); model of the Go cutset used in strings.Trim. -/
def isQuoteChar (c : Char) : Bool := c.toNat = 34 || c.toNat = 39

/-- Model of Go strings.Trim with the quote cutset. -/
def trimQuotes (s : GoStr) : GoStr :=
  ((s.dropWhile isQuoteChar).reverse.dropWhile isQuoteChar).reverse

/-- Decimal digit test. -/
def isDigitCh (c : Char) : Bool := 48 ≤ c.toNat && c.toNat ≤ 57

/-- Consume a maximal run of decimal digits, returning the accumulated value,
the number of digits consumed and the rest of the input. -/
def takeDigits : Nat → Nat → GoStr → Nat × Nat × GoStr
  | acc, n, [] => (acc, n, [])
  | acc, n, c :: rest =>
    if isDigitCh c then takeDigits (acc * 10 + (c.toNat - 48)) (n + 1) rest
    else (acc, n, c :: rest)

/-- Model of Go strconv.ParseFloat on decimal literals, as an exact rational:
optional sign, digits with an optional fractional part (at least one digit
overall), optional e/E exponent with optional sign and at least one digit;
the whole input must be consumed.  Hex floats, underscores, inf and nan are
outside the model, and float64 rounding is not modelled. -/
def goParseFloat (s : GoStr) : Option Rat :=
  let signRest : Bool × GoStr :=
    match s with
    | c :: r => if c.toNat = 43 then (false, r) else if c.toNat = 45 then (true, r) else (false, s)
    | [] => (false, s)
  let neg := signRest.1
  let s1 := signRest.2
  let ipRes := takeDigits 0 0 s1
  let ip := ipRes.1
  let ipn := ipRes.2.1
  let s2 := ipRes.2.2
  let fpRes : Nat × Nat × GoStr :=
    match s2 with
    | c :: r => if c.toNat = 46 then takeDigits 0 0 r else (0, 0, s2)
    | [] => (0, 0, s2)
  let fp := fpRes.1
  let fpn := fpRes.2.1
  let s3 := fpRes.2.2
  if ipn + fpn = 0 then none
  else
    let num : Nat := ip * 10 ^ fpn + fp
    let den : Nat := 10 ^ fpn
    match s3 with
    | [] => some (mkRat (if neg then -(num : Int) else (num : Int)) den)
    | c :: r =>
      if c.toNat = 101 || c.toNat = 69 then
        let esignRest : Bool × GoStr :=
          match r with
          | d :: r2 => if d.toNat = 43 then (false, r2) else if d.toNat = 45 then (true, r2) else (false, r)
          | [] => (false, r)
        let eneg := esignRest.1
        let r1 := esignRest.2
        let eRes := takeDigits 0 0 r1
        let ev := eRes.1
        let en := eRes.2.1
        let r3 := eRes.2.2
        if en = 0 ∨ r3 ≠ [] then none
        else
          let num2 : Nat := if eneg then num else num * 10 ^ ev
          let den2 : Nat := if eneg then den * 10 ^ ev else den
          some (mkRat (if neg then -(num2 : Int) else (num2 : Int)) den2)
      else none

/-!
Embedding of windows/queryParser.go: the query data model, NewQueryParser,
splitByLogicOps, parseExpression, ParseQuery, EvaluateRow,
evaluateExpression, compareNumeric and compareString.
-/

/-- Comparison operators of the query language (CompOp in queryParser.go). -/
inductive CompOp where
  | OpEqual
  | OpNotEqual
  | OpGreater
  | OpLess
  | OpGreaterEqual
  | OpLessEqual
  | OpContains
deriving DecidableEq, Repr

/-- Expression represents a single comparison (queryParser.go). -/
structure Expression where
  ColumnName : GoStr
  Operator : CompOp
  Value : GoStr
deriving DecidableEq, Repr

/-- LogicalOp represents AND/OR operations (queryParser.go). -/
inductive LogicalOp where
  | LogicAND
  | LogicOR
deriving DecidableEq, Repr

/-- Query represents a complete query with multiple expressions
(queryParser.go). -/
structure Query where
  Expressions : List Expression
  LogicOps : List LogicalOp
deriving DecidableEq, Repr

/-- QueryParser holds the column-name-to-index map (queryParser.go).  The Go
map is modelled as an association list in which the entry inserted last
comes first, so that lookup sees the Go map's overwrite semantics. -/
structure QueryParser where
  columnMap : List (GoStr × Nat)
deriving DecidableEq, Repr

/-- Lookup in the modelled Go map. -/
def mapLookup : List (GoStr × Nat) → GoStr → Option Nat
  | [], _ => none
  | (k, v) :: rest, key => if k = key then some v else mapLookup rest key

/-- NewQueryParser creates a parser mapping each lower-cased header to its
index; a later duplicate header overwrites an earlier one, as in a Go map. -/
def NewQueryParser (headers : List GoStr) : QueryParser :=
  ⟨(headers.enum.map (fun p => (lowerStr p.2, p.1))).reverse⟩

/-- Errors of ParseQuery/parseExpression.  The Go code returns fmt.Errorf
values; the three distinct failure sites are modelled as constructors.  The
specification groups all of them under the InvalidFilter taxonomy entry. -/
inductive ParseErr where
  | emptyQuery
  | mismatched
  | unknownColumn (name : GoStr)
deriving DecidableEq, Repr

/-- One token of the tokenized query: an expression text or an AND/OR
operator (queryPart in queryParser.go). -/
structure QueryPart where
  text : GoStr
  isOperator : Bool
deriving DecidableEq, Repr

/-- Model of isWhitespace in queryParser.go: space, tab, newline, carriage
return. -/
def isWhitespaceGo (c : Char) : Bool :=
  c.toNat = 32 || c.toNat = 9 || c.toNat = 10 || c.toNat = 13

/-- Does the input start with the three letters of the word AND,
case-insensitively (model of ToUpper(query[i:i+3]) == "AND"). -/
def startsWithAND (s : GoStr) : Bool :=
  match s with
  | a :: n :: d :: _ => upperChar a == 'A' && upperChar n == 'N' && upperChar d == 'D'
  | _ => false

/-- Does the input start with the two letters of the word OR,
case-insensitively. -/
def startsWithOR (s : GoStr) : Bool :=
  match s with
  | o :: r :: _ => upperChar o == 'O' && upperChar r == 'R'
  | _ => false

/-- Word boundary before the candidate operator: at the beginning of the
query or after a whitespace character.  The argument is the previously
consumed character, none at position zero. -/
def boundaryBefore (prev : Option Char) : Bool :=
  match prev with
  | none => true
  | some c => isWhitespaceGo c

/-- Word boundary after the candidate operator: at the end of the query or
before a whitespace character. -/
def boundaryAfter (rest : GoStr) : Bool :=
  match rest with
  | [] => true
  | c :: _ => isWhitespaceGo c

/-- Push the current accumulated text as an expression part if it is
non-blank after trimming (queryParser.go, splitByLogicOps). -/
def pushCurrent (parts : List QueryPart) (current : GoStr) : List QueryPart :=
  if trimSpace current = [] then parts else parts ++ [⟨trimSpace current, false⟩]

/-- Main loop of splitByLogicOps: scans the query left to right, splitting
out word-boundary-delimited AND/OR operators and accumulating everything
else into the current expression text.  Recursion is driven structurally by
a fuel argument which, seeded with the query length, never runs out since
every step consumes at least one character. -/
def splitLoop (fuel : Nat) (prev : Option Char) (rest : GoStr) (current : GoStr)
    (parts : List QueryPart) : List QueryPart :=
  match fuel, rest with
  | _, [] => pushCurrent parts current
  | 0, _ :: _ => pushCurrent parts current
  | fuel + 1, c :: t =>
    if startsWithAND (c :: t) && boundaryBefore prev && boundaryAfter ((c :: t).drop 3) then
      splitLoop fuel (some ((c :: t).getD 2 c)) ((c :: t).drop 3) []
        (pushCurrent parts current ++ [⟨['A', 'N', 'D'], true⟩])
    else if startsWithOR (c :: t) && boundaryBefore prev && boundaryAfter ((c :: t).drop 2) then
      splitLoop fuel (some ((c :: t).getD 1 c)) ((c :: t).drop 2) []
        (pushCurrent parts current ++ [⟨['O', 'R'], true⟩])
    else
      splitLoop fuel (some c) t (current ++ [c]) parts

/-- splitByLogicOps splits a query by AND/OR while preserving the operators
(queryParser.go). -/
def splitByLogicOps (query : GoStr) : List QueryPart :=
  splitLoop query.length none query [] []

/-- Ordered operator table of parseExpression: longer symbols first so that
multi-character operators match before their single-character prefixes. -/
def operatorList : List (CompOp × GoStr) :=
  [(CompOp.OpGreaterEqual, ['>', '=']),
   (CompOp.OpLessEqual, ['<', '=']),
   (CompOp.OpNotEqual, ['!', '=']),
   (CompOp.OpEqual, ['=']),
   (CompOp.OpGreater, ['>']),
   (CompOp.OpLess, ['<']),
   (CompOp.OpContains, ['~'])]

/-- Find the first operator in the table whose first occurrence in the
expression text is at a position strictly greater than zero, returning the
operator, its symbol and that position (the loop of parseExpression). -/
def findOp (exprStr : GoStr) : List (CompOp × GoStr) → Option (CompOp × GoStr × Nat)
  | [] => none
  | (op, sym) :: rest =>
    match goIndex exprStr sym with
    | some idx => if 0 < idx then some (op, sym, idx) else findOp exprStr rest
    | none => findOp exprStr rest

/-- parseExpression parses a single expression like column = value
(queryParser.go).  When an operator is found at a positive position the text
splits into column name and quote-trimmed value and the column must exist in
the column map; when no operator is found the whole trimmed text becomes a
contains search on all columns. -/
def parseExpression (qp : QueryParser) (exprStr0 : GoStr) : Except ParseErr Expression :=
  let exprStr := trimSpace exprStr0
  match findOp exprStr operatorList with
  | some (op, sym, idx) =>
    let columnName := trimSpace (exprStr.take idx)
    let value := trimQuotes (trimSpace (exprStr.drop (idx + sym.length)))
    if (mapLookup qp.columnMap (lowerStr columnName)).isSome then
      Except.ok ⟨columnName, op, value⟩
    else
      Except.error (ParseErr.unknownColumn columnName)
  | none => Except.ok ⟨[], CompOp.OpContains, exprStr⟩

/-- Loop of ParseQuery over the tokenized parts: operator parts append a
logical operator, expression parts are parsed and appended, and the first
expression parse failure aborts the whole parse. -/
def parsePartsLoop (qp : QueryParser) :
    List QueryPart → List Expression → List LogicalOp →
    Except ParseErr (List Expression × List LogicalOp)
  | [], exprs, ops => Except.ok (exprs, ops)
  | p :: rest, exprs, ops =>
    if p.isOperator then
      if upperStr p.text = ['A', 'N', 'D'] then
        parsePartsLoop qp rest exprs (ops ++ [LogicalOp.LogicAND])
      else if upperStr p.text = ['O', 'R'] then
        parsePartsLoop qp rest exprs (ops ++ [LogicalOp.LogicOR])
      else
        parsePartsLoop qp rest exprs ops
    else
      match parseExpression qp p.text with
      | Except.error e => Except.error e
      | Except.ok expr => parsePartsLoop qp rest (exprs ++ [expr]) ops

/-- ParseQuery parses a query string into a Query (queryParser.go): a blank
query yields no query and no error; a tokenization with no parts is an
error; expression parse errors propagate; and N expressions must come with
exactly N-1 logical operators. -/
def ParseQuery (qp : QueryParser) (queryStr : GoStr) : Except ParseErr (Option Query) :=
  if trimSpace queryStr = [] then Except.ok none
  else
    let parts := splitByLogicOps queryStr
    if parts = [] then Except.error ParseErr.emptyQuery
    else
      match parsePartsLoop qp parts [] [] with
      | Except.error e => Except.error e
      | Except.ok (exprs, ops) =>
        if (ops.length : Int) ≠ (exprs.length : Int) - 1 then Except.error ParseErr.mismatched
        else Except.ok (some ⟨exprs, ops⟩)

/-- Is a result an error (the err != nil test of the Go callers). -/
def isErr {ε α : Type} : Except ε α → Bool
  | Except.error _ => true
  | Except.ok _ => false

/-- Texts of the expression (non-operator) parts of the tokenized query. -/
def exprPartTexts (s : GoStr) : List GoStr :=
  ((splitByLogicOps s).filter (fun p => ! p.isOperator)).map QueryPart.text

/-- Number of logical operators the parse loop collects from the tokenized
query: operator parts whose upper-cased text is AND or OR. -/
def logicOpPartCount (s : GoStr) : Nat :=
  ((splitByLogicOps s).filter
    (fun p => p.isOperator
      && (upperStr p.text = ['A', 'N', 'D'] || upperStr p.text = ['O', 'R']))).length

/-- compareString compares two strings lexicographically after lower-casing
(queryParser.go); operators outside the four ordering operators yield
false. -/
def compareString (cellValue compareValue : GoStr) (op : CompOp) : Bool :=
  let cmp := strCompare (lowerStr cellValue) (lowerStr compareValue)
  match op with
  | CompOp.OpGreater => decide (cmp > 0)
  | CompOp.OpLess => decide (cmp < 0)
  | CompOp.OpGreaterEqual => decide (cmp ≥ 0)
  | CompOp.OpLessEqual => decide (cmp ≤ 0)
  | _ => false

/-- compareNumeric compares two values numerically when both trimmed sides
parse as numbers and falls back to compareString otherwise
(queryParser.go). -/
def compareNumeric (cellValue compareValue : GoStr) (op : CompOp) : Bool :=
  match goParseFloat (trimSpace cellValue), goParseFloat (trimSpace compareValue) with
  | some cell, some cmp =>
    match op with
    | CompOp.OpGreater => decide (cell > cmp)
    | CompOp.OpLess => decide (cell < cmp)
    | CompOp.OpGreaterEqual => decide (cell ≥ cmp)
    | CompOp.OpLessEqual => decide (cell ≤ cmp)
    | _ => false
  | _, _ => compareString cellValue compareValue op

/-- evaluateExpression evaluates a single expression against a row
(queryParser.go): a column-less contains expression searches all columns;
otherwise the column is looked up (false if absent or out of range of the
row) and the cell is compared to the value according to the operator.  The
headers argument is kept from the Go signature though unused there too. -/
def evaluateExpression (qp : QueryParser) (expr : Expression) (row : List GoStr)
    (headers : List GoStr) : Bool :=
  if expr.ColumnName = ([] : GoStr) ∧ expr.Operator = CompOp.OpContains then
    row.any (fun cell => strContains (lowerStr cell) (lowerStr expr.Value))
  else
    match mapLookup qp.columnMap (lowerStr expr.ColumnName) with
    | none => false
    | some colIdx =>
      if row.length ≤ colIdx then false
      else
        let cellValue := row.getD colIdx []
        match expr.Operator with
        | CompOp.OpEqual => eqFold cellValue expr.Value
        | CompOp.OpNotEqual => ! eqFold cellValue expr.Value
        | CompOp.OpContains => strContains (lowerStr cellValue) (lowerStr expr.Value)
        | _ => compareNumeric cellValue expr.Value expr.Operator

/-- Combination of a running result with the next expression result under a
logical operator (the switch in the loop of EvaluateRow). -/
def applyLogic (op : LogicalOp) (a b : Bool) : Bool :=
  match op with
  | LogicalOp.LogicAND => a && b
  | LogicalOp.LogicOR => a || b

/-- Loop of EvaluateRow: walks the logical operators, pairing the i-th
operator with expression i+1 of the query.  When the operators outnumber the
remaining expressions the Go code would index out of range; that case is
unreachable for queries produced by ParseQuery and the loop stops there. -/
def evalOpsLoop (qp : QueryParser) (row headers : List GoStr) :
    Bool → List LogicalOp → List Expression → Bool
  | result, [], _ => result
  | result, _ :: _, [] => result
  | result, op :: ops, e :: es =>
    evalOpsLoop qp row headers
      (applyLogic op result (evaluateExpression qp e row headers)) ops es

/-- EvaluateRow evaluates a query against a data row (queryParser.go): an
absent query or one with no expressions matches every row; a single
expression is evaluated directly; otherwise the first expression seeds the
running result and the logical operators fold the remaining expressions in
from left to right. -/
def EvaluateRow (qp : QueryParser) (query : Option Query) (row headers : List GoStr) : Bool :=
  match query with
  | none => true
  | some q =>
    match q.Expressions with
    | [] => true
    | [e] => evaluateExpression qp e row headers
    | e0 :: e1 :: rest =>
      evalOpsLoop qp row headers (evaluateExpression qp e0 row headers)
        q.LogicOps (e1 :: rest)

/-!
Embedding of the Arrow value copying in windows/dataBrowser.go: the column
and builder model, appendValueToBuilder, the per-column build loop of
createFilteredArrowTable, and createFilteredArrowTable itself.
-/

/-- Primitive Arrow column types recognized by the copy dispatcher in
appendValueToBuilder. -/
inductive ArrowPrimType where
  | string
  | binary
  | boolean
  | int8
  | int16
  | int32
  | int64
  | uint8
  | uint16
  | uint32
  | uint64
  | float16
  | float32
  | float64
  | date32
  | date64
  | timestamp
  | decimal128
deriving DecidableEq, Repr

/-- Payload of one non-null primitive Arrow cell.  The numeric payloads
carry exact values; the copy dispatcher only moves them verbatim. -/
inductive ArrowPrimVal where
  | vStr (s : GoStr)
  | vBin (bytes : List Nat)
  | vBool (b : Bool)
  | vInt (i : Int)
  | vFloat (q : Rat)
deriving DecidableEq, Repr

/-- Model of an Arrow array, which doubles as the model of an Arrow builder
(a builder is the array built so far).  A primitive array is its type tag
with a list of optional cells; a struct array is a validity list with child
field arrays; a list array is a validity list, an offsets list (one more
entry than values) and a child value array; any column type not recognized
by the copy dispatcher is an otherArr carrying only its type name and
validity. -/
inductive ArrowArray where
  | prim (t : ArrowPrimType) (cells : List (Option ArrowPrimVal))
  | structArr (validity : List Bool) (fields : List ArrowArray)
  | listArr (validity : List Bool) (offsets : List Nat) (values : ArrowArray)
  | otherArr (typeName : GoStr) (validity : List Bool)

/-- Null test at a position (Arrow IsNull); positions past the end do not
occur in the verified call sites. -/
def ArrowArray.isNull (col : ArrowArray) (pos : Nat) : Bool :=
  match col with
  | ArrowArray.prim _ cells => (cells.getD pos none).isNone
  | ArrowArray.structArr validity _ => ! validity.getD pos false
  | ArrowArray.listArr validity _ _ => ! validity.getD pos false
  | ArrowArray.otherArr _ validity => ! validity.getD pos false

/-- AppendNull on a builder: appends a null slot, keeping the declared type.
Child builders of a struct are left untouched and a list appends a repeated
offset, matching the Arrow builders used by the Go code. -/
def ArrowArray.appendNull (b : ArrowArray) : ArrowArray :=
  match b with
  | ArrowArray.prim t cells => ArrowArray.prim t (cells ++ [none])
  | ArrowArray.structArr validity fields => ArrowArray.structArr (validity ++ [false]) fields
  | ArrowArray.listArr validity offsets values =>
    ArrowArray.listArr (validity ++ [false]) (offsets ++ [offsets.getLastD 0]) values
  | ArrowArray.otherArr t validity => ArrowArray.otherArr t (validity ++ [false])

mutual

/-- Model of array.NewBuilder(pool, field.Type): an empty builder of the
same declared type as the given column. -/
def emptyBuilderOf : ArrowArray → ArrowArray
  | ArrowArray.prim t _ => ArrowArray.prim t []
  | ArrowArray.structArr _ fields => ArrowArray.structArr [] (emptyBuildersOf fields)
  | ArrowArray.listArr _ _ values => ArrowArray.listArr [] [0] (emptyBuilderOf values)
  | ArrowArray.otherArr t _ => ArrowArray.otherArr t []

/-- Empty builders for a list of child field arrays. -/
def emptyBuildersOf : List ArrowArray → List ArrowArray
  | [] => []
  | a :: rest => emptyBuilderOf a :: emptyBuildersOf rest
end

mutual

/-- appendValueToBuilder appends a typed value from an Arrow column to a
builder (dataBrowser.go): a null cell is appended as null; a recognized
primitive is copied verbatim; a struct marks the slot valid and copies each
field recursively; a list marks the slot valid and copies its element range
recursively; any unrecognized column type is appended as null.  A
builder/column shape mismatch would be a failing type assertion in Go and
is unreachable because builders are created from the column's own type; the
model returns the builder unchanged there. -/
def appendValueToBuilder (builder : ArrowArray) (col : ArrowArray) (pos : Nat) : ArrowArray :=
  if col.isNull pos then builder.appendNull
  else
    match col, builder with
    | ArrowArray.prim _ cells, ArrowArray.prim bt bcells =>
      ArrowArray.prim bt (bcells ++ [cells.getD pos none])
    | ArrowArray.structArr _ fields, ArrowArray.structArr bvalid bfields =>
      ArrowArray.structArr (bvalid ++ [true]) (appendStructFields bfields fields pos)
    | ArrowArray.listArr _ offsets values, ArrowArray.listArr bvalid boffsets bvalues =>
      ArrowArray.listArr (bvalid ++ [true])
        (boffsets ++ [boffsets.getLastD 0 + (offsets.getD (pos + 1) 0 - offsets.getD pos 0)])
        (appendListRange bvalues values (offsets.getD pos 0)
          (offsets.getD (pos + 1) 0 - offsets.getD pos 0))
    | ArrowArray.otherArr _ _, _ => builder.appendNull
    | _, _ => builder
termination_by (sizeOf col, 0)

/-- Copy one struct cell field by field: pairs each field builder with the
matching field column, as the loop over NumField does. -/
def appendStructFields (bfields cfields : List ArrowArray) (pos : Nat) : List ArrowArray :=
  match bfields, cfields with
  | bf :: brest, cf :: crest =>
    appendValueToBuilder bf cf pos :: appendStructFields brest crest pos
  | bs, _ => bs
termination_by (sizeOf cfields, 0)

/-- Copy cnt consecutive elements of a list cell, starting at element index
start, into the value builder (the offsets loop of the LIST case). -/
def appendListRange (b values : ArrowArray) (start cnt : Nat) : ArrowArray :=
  match cnt with
  | 0 => b
  | Nat.succ n => appendListRange (appendValueToBuilder b values start) values (start + 1) n
termination_by (sizeOf values, cnt + 1)

end

/-- Per-column loop of createFilteredArrowTable: a fresh builder of the
column's type, into which the cell at every tracked original row index is
appended in order. -/
def buildColumn (col : ArrowArray) (rowIndices : List Nat) : ArrowArray :=
  rowIndices.foldl (fun b idx => appendValueToBuilder b col idx) (emptyBuilderOf col)

/-- State of one open table in the data browser (the Data struct of
dataBrowser.go, restricted to the fields the verified operations read or
write; GUI handles and the Arrow record wrapper are elided, with arrowCols
standing for the typed columns of the underlying Arrow record). -/
structure Data where
  data : List (List GoStr)
  header : List GoStr
  arrowCols : List ArrowArray
  filteredData : List (List GoStr)
  filteredHeader : List GoStr
  visibleColumns : List Nat
  filteredRowIndices : List Nat

/-- Error of createFilteredArrowTable; the Go code returns the error value
fmt.Errorf with the text no data to export, the EmptyData case of the
specification's taxonomy. -/
inductive ExportErr where
  | emptyData
deriving DecidableEq, Repr

/-- Result of the export reconstruction: the rebuilt columns (restricted to
the visible ones) and the row count. -/
structure ArrowTable where
  columns : List ArrowArray
  numRows : Nat

/-- createFilteredArrowTable creates an Arrow table from the filtered data
(dataBrowser.go): with no filtered rows it fails with the empty-data error
and produces nothing; otherwise for every visible column it builds a new
column containing, in order, the cells at the tracked original row
indices. -/
def createFilteredArrowTable (dataItem : Data) : Except ExportErr ArrowTable :=
  if dataItem.filteredData = [] then Except.error ExportErr.emptyData
  else
    Except.ok
      ⟨dataItem.visibleColumns.map
          (fun colIdx =>
            buildColumn (dataItem.arrowCols.getD colIdx (ArrowArray.otherArr [] []))
              dataItem.filteredRowIndices),
        dataItem.filteredData.length⟩

/-!
Embedding of the applyFilters closure of dataBrowser.go: parsing the search
text, recovering the last valid query on a parse error, and recomputing the
filtered projection.
-/

/-- Projection of one row onto the visible columns. -/
def projectRow (visibleCols : List Nat) (row : List GoStr) : List GoStr :=
  visibleCols.map (fun j => row.getD j [])

/-- Row-filtering step of applyFilters: with no query (or one with no
expressions) every row is kept with its index; otherwise exactly the rows
satisfying EvaluateRow are kept, projected to the visible columns, together
with their original indices. -/
def filterRows (qp : QueryParser) (header : List GoStr) (rows : List (List GoStr))
    (query : Option Query) (visibleCols : List Nat) :
    List (List GoStr) × List Nat :=
  match query with
  | none => (rows.map (projectRow visibleCols), List.range rows.length)
  | some q =>
    if q.Expressions = [] then (rows.map (projectRow visibleCols), List.range rows.length)
    else
      let keep := rows.enum.filter (fun p => EvaluateRow qp (some q) p.2 header)
      (keep.map (fun p => projectRow visibleCols p.2), keep.map (fun p => p.1))

/-- Indices of the checked columns, in header order. -/
def visibleColsOf (header : List GoStr) (checked : GoStr → Bool) : List Nat :=
  (header.enum.filter (fun p => checked p.2)).map (fun p => p.1)

/-- Mutable state captured by the applyFilters closure: the open table and
the last successfully parsed query. -/
structure FilterEnv where
  dataItem : Data
  lastValidQuery : Option Query

/-- applyFilters (dataBrowser.go): recomputes the visible columns from the
checkbox state, parses the trimmed search text, falls back to the last
valid query when parsing fails (keeping lastValidQuery unchanged), records
the new query as last valid when parsing succeeds, and recomputes
filteredData and filteredRowIndices from the chosen query. -/
def applyFilters (env : FilterEnv) (checked : GoStr → Bool) (searchEntryText : GoStr) :
    FilterEnv :=
  let searchText := trimSpace searchEntryText
  let qp := NewQueryParser env.dataItem.header
  let visibleCols := visibleColsOf env.dataItem.header checked
  let newFilteredHeader := env.dataItem.header.filter checked
  match ParseQuery qp searchText with
  | Except.error _ =>
    let fr := filterRows qp env.dataItem.header env.dataItem.data env.lastValidQuery visibleCols
    ⟨⟨env.dataItem.data, env.dataItem.header, env.dataItem.arrowCols, fr.1,
        newFilteredHeader, visibleCols, fr.2⟩,
      env.lastValidQuery⟩
  | Except.ok q =>
    let fr := filterRows qp env.dataItem.header env.dataItem.data q visibleCols
    ⟨⟨env.dataItem.data, env.dataItem.header, env.dataItem.arrowCols, fr.1,
        newFilteredHeader, visibleCols, fr.2⟩,
      q⟩

/-- Row indices produced by evaluating a query over the full data set; the
second component of filterRows, which does not depend on the visible
columns. -/
def rowIndicesFor (header : List GoStr) (rows : List (List GoStr)) (query : Option Query) :
    List Nat :=
  (filterRows (NewQueryParser header) header rows query []).2

/-!
Embedding of magnus-fyne-datatable/internal/filter/composite.go:
CompositeFilter and its Evaluate method.  The child filters implement the
datatable Filter interface; their Evaluate takes a row of typed values and
the column names and returns a boolean or an error.
-/

/-- Typed cell container of the datatable package (datasource.go).  The Raw
payload is a Go interface value inspected by no verified code and is
elided; the type tag, null flag and pre-formatted display string are
kept. -/
structure DTValue where
  typ : Nat
  isNull : Bool
  formatted : GoStr

/-- Errors surfaced by filters: the invalid-filter error carrying the
unknown logic operator (wrapping datatable.ErrInvalidFilter), or any error
a child filter reports. -/
inductive FilterError where
  | invalidFilter (badLogic : Int)
  | childError (msg : GoStr)
deriving DecidableEq, Repr

/-- A datatable Filter, as its Evaluate method. -/
def DTFilter := List DTValue → List GoStr → Except FilterError Bool

/-- CompositeFilter combines multiple filters with AND or OR logic
(composite.go).  Logic is the Go int-typed LogicOp: 0 is AND, 1 is OR. -/
structure CompositeFilter where
  Filters : List DTFilter
  Logic : Int

/-- AND loop of CompositeFilter.Evaluate: errors propagate, the first
failing child short-circuits to false, and an exhausted list yields true. -/
def evalANDFilters : List DTFilter → List DTValue → List GoStr → Except FilterError Bool
  | [], _, _ => Except.ok true
  | f :: fs, row, cols =>
    match f row cols with
    | Except.error e => Except.error e
    | Except.ok false => Except.ok false
    | Except.ok true => evalANDFilters fs row cols

/-- OR loop of CompositeFilter.Evaluate: errors propagate, the first passing
child short-circuits to true, and an exhausted list yields false. -/
def evalORFilters : List DTFilter → List DTValue → List GoStr → Except FilterError Bool
  | [], _, _ => Except.ok false
  | f :: fs, row, cols =>
    match f row cols with
    | Except.error e => Except.error e
    | Except.ok true => Except.ok true
    | Except.ok false => evalORFilters fs row cols

/-- Evaluate of CompositeFilter (composite.go): an empty filter list passes
every row before the logic operator is even examined; AND and OR run their
short-circuiting loops; any other logic value is an invalid-filter error. -/
def CompositeFilter.Evaluate (f : CompositeFilter) (row : List DTValue) (cols : List GoStr) :
    Except FilterError Bool :=
  if f.Filters.isEmpty then Except.ok true
  else if f.Logic = 0 then evalANDFilters f.Filters row cols
  else if f.Logic = 1 then evalORFilters f.Filters row cols
  else Except.error (FilterError.invalidFilter f.Logic)

/-- Specification-side description of evaluating one explicit-column
expression against the cell it names (spec section 4.3): equality and
inequality are case-insensitive string equality, tilde is case-insensitive
substring containment, and each ordering operator first attempts a numeric
parse of both sides, comparing numerically when both succeed and otherwise
comparing the lower-cased strings lexicographically. -/
def specCompareCell (cell value : GoStr) (op : CompOp) : Bool :=
  match op with
  | CompOp.OpEqual => lowerStr cell == lowerStr value
  | CompOp.OpNotEqual => ! (lowerStr cell == lowerStr value)
  | CompOp.OpContains => strContains (lowerStr cell) (lowerStr value)
  | CompOp.OpGreater =>
    match goParseFloat (trimSpace cell), goParseFloat (trimSpace value) with
    | some a, some b => decide (a > b)
    | _, _ => decide (strCompare (lowerStr cell) (lowerStr value) > 0)
  | CompOp.OpLess =>
    match goParseFloat (trimSpace cell), goParseFloat (trimSpace value) with
    | some a, some b => decide (a < b)
    | _, _ => decide (strCompare (lowerStr cell) (lowerStr value) < 0)
  | CompOp.OpGreaterEqual =>
    match goParseFloat (trimSpace cell), goParseFloat (trimSpace value) with
    | some a, some b => decide (a ≥ b)
    | _, _ => decide (strCompare (lowerStr cell) (lowerStr value) ≥ 0)
  | CompOp.OpLessEqual =>
    match goParseFloat (trimSpace cell), goParseFloat (trimSpace value) with
    | some a, some b => decide (a ≤ b)
    | _, _ => decide (strCompare (lowerStr cell) (lowerStr value) ≤ 0)

/-!
Theorems.  Helper lemmas come first; each claim then gets exactly one
theorem (with a witness when the theorem carries hypotheses).
-/

/-- Helper: the AND loop ignores everything after the first failing child. -/
lemma evalANDFilters_shortcircuit (row : List DTValue) (cols : List GoStr)
    (g : DTFilter) (post pre : List DTFilter)
    (hpre : ∀ f ∈ pre, f row cols = Except.ok true)
    (hg : g row cols = Except.ok false) :
    evalANDFilters (pre ++ g :: post) row cols = Except.ok false := by
  induction pre with
  | nil => simp [evalANDFilters, hg]
  | cons f fs ih =>
    have hf : f row cols = Except.ok true := hpre f (by simp)
    simp only [List.cons_append, evalANDFilters, hf]
    exact ih (fun f2 hf2 => hpre f2 (by simp [hf2]))

/-- Helper: the OR loop ignores everything after the first passing child. -/
lemma evalORFilters_shortcircuit (row : List DTValue) (cols : List GoStr)
    (g : DTFilter) (post pre : List DTFilter)
    (hpre : ∀ f ∈ pre, f row cols = Except.ok false)
    (hg : g row cols = Except.ok true) :
    evalORFilters (pre ++ g :: post) row cols = Except.ok true := by
  induction pre with
  | nil => simp [evalORFilters, hg]
  | cons f fs ih =>
    have hf : f row cols = Except.ok false := hpre f (by simp)
    simp only [List.cons_append, evalORFilters, hf]
    exact ih (fun f2 hf2 => hpre f2 (by simp [hf2]))

/-- C5: CompositeFilter.Evaluate with an empty filter list returns true for
every logic value (the identity filter); with AND logic it returns false as
soon as one child returns false and earlier children all returned true,
whatever the later children are (they are not evaluated); with OR logic it
returns true as soon as one child returns true and earlier children all
returned false, whatever the later children are; and with a non-empty
filter list and a logic value other than AND (0) and OR (1) it returns the
invalid-filter error. -/
theorem composite_evaluate_spec :
    (∀ (logic : Int) (row : List DTValue) (cols : List GoStr),
      CompositeFilter.Evaluate ⟨[], logic⟩ row cols = Except.ok true)
    ∧ (∀ (pre post : List DTFilter) (g : DTFilter) (row : List DTValue) (cols : List GoStr),
        (∀ f ∈ pre, f row cols = Except.ok true) → g row cols = Except.ok false →
        CompositeFilter.Evaluate ⟨pre ++ g :: post, 0⟩ row cols = Except.ok false)
    ∧ (∀ (pre post : List DTFilter) (g : DTFilter) (row : List DTValue) (cols : List GoStr),
        (∀ f ∈ pre, f row cols = Except.ok false) → g row cols = Except.ok true →
        CompositeFilter.Evaluate ⟨pre ++ g :: post, 1⟩ row cols = Except.ok true)
    ∧ (∀ (fs : List DTFilter) (logic : Int) (row : List DTValue) (cols : List GoStr),
        fs ≠ [] → logic ≠ 0 → logic ≠ 1 →
        CompositeFilter.Evaluate ⟨fs, logic⟩ row cols
          = Except.error (FilterError.invalidFilter logic)) := by
  refine ⟨?_, ?_, ?_, ?_⟩
  · intro logic row cols
    simp [CompositeFilter.Evaluate]
  · intro pre post g row cols hpre hg
    have hne : pre ++ g :: post ≠ [] := by simp
    simp only [CompositeFilter.Evaluate]
    rw [if_neg (by simpa [List.isEmpty_iff] using hne)]
    simp only [if_true, show ((0 : Int) = 0) = True from by simp]
    exact evalANDFilters_shortcircuit row cols g post pre hpre hg
  · intro pre post g row cols hpre hg
    have hne : pre ++ g :: post ≠ [] := by simp
    simp only [CompositeFilter.Evaluate]
    rw [if_neg (by simpa [List.isEmpty_iff] using hne)]
    rw [if_neg (by norm_num)]
    simp only [if_true, show ((1 : Int) = 1) = True from by simp]
    exact evalORFilters_shortcircuit row cols g post pre hpre hg
  · intro fs logic row cols hne h0 h1
    simp only [CompositeFilter.Evaluate]
    rw [if_neg (by simpa [List.isEmpty_iff] using hne), if_neg h0, if_neg h1]

/-- Witness for C5 at concrete inputs: an empty list under an unknown logic
value passes; AND stops at the failing second child before an erroring
third child; OR stops at the passing second child before an erroring third
child; a non-empty list under logic 5 is an invalid-filter error. -/
theorem composite_evaluate_spec_witness :
    CompositeFilter.Evaluate ⟨[], 7⟩ [] [] = Except.ok true
    ∧ CompositeFilter.Evaluate
        ⟨[fun _ _ => Except.ok true, fun _ _ => Except.ok false,
          fun _ _ => Except.error (FilterError.childError [])], 0⟩ [] []
        = Except.ok false
    ∧ CompositeFilter.Evaluate
        ⟨[fun _ _ => Except.ok false, fun _ _ => Except.ok true,
          fun _ _ => Except.error (FilterError.childError [])], 1⟩ [] []
        = Except.ok true
    ∧ CompositeFilter.Evaluate ⟨[fun _ _ => Except.ok true], 5⟩ [] []
        = Except.error (FilterError.invalidFilter 5) := by
  refine ⟨composite_evaluate_spec.1 7 [] [], ?_, ?_, ?_⟩
  · exact composite_evaluate_spec.2.1 [fun _ _ => Except.ok true]
      [fun _ _ => Except.error (FilterError.childError [])]
      (fun _ _ => Except.ok false) [] []
      (by intro f hf; simp at hf; subst hf; rfl) rfl
  · exact composite_evaluate_spec.2.2.1 [fun _ _ => Except.ok false]
      [fun _ _ => Except.error (FilterError.childError [])]
      (fun _ _ => Except.ok true) [] []
      (by intro f hf; simp at hf; subst hf; rfl) rfl
  · exact composite_evaluate_spec.2.2.2 [fun _ _ => Except.ok true] 5 [] []
      (by simp) (by decide) (by decide)

/-- Helper: a null source cell is appended as a null, whatever the column
shape (the leading IsNull check of appendValueToBuilder). -/
lemma appendValueToBuilder_of_null (b col : ArrowArray) (pos : Nat)
    (h : col.isNull pos = true) :
    appendValueToBuilder b col pos = b.appendNull := by
  rw [appendValueToBuilder.eq_def]
  rw [if_pos h]

/-- Helper: appending from a primitive column into a primitive builder
appends exactly the source cell (null or not). -/
lemma appendValueToBuilder_prim (t tb : ArrowPrimType)
    (cells bcells : List (Option ArrowPrimVal)) (pos : Nat) :
    appendValueToBuilder (ArrowArray.prim tb bcells) (ArrowArray.prim t cells) pos
      = ArrowArray.prim tb (bcells ++ [cells.getD pos none]) := by
  rw [appendValueToBuilder.eq_def]
  by_cases h : (ArrowArray.prim t cells).isNull pos
  · have hc : cells[pos]?.getD none = none := by
      simpa [ArrowArray.isNull, List.getD_eq_getElem?_getD] using h
    simp [h, ArrowArray.appendNull, List.getD_eq_getElem?_getD, hc]
  · simp [h]

/-- Helper: the per-column build loop over a primitive column, for an
arbitrary already-accumulated builder content. -/
lemma buildColumn_prim_loop (t : ArrowPrimType) (cells : List (Option ArrowPrimVal))
    (idxs : List Nat) (acc : List (Option ArrowPrimVal)) :
    idxs.foldl (fun b i => appendValueToBuilder b (ArrowArray.prim t cells) i)
        (ArrowArray.prim t acc)
      = ArrowArray.prim t (acc ++ idxs.map (fun i => cells.getD i none)) := by
  induction idxs generalizing acc with
  | nil => simp
  | cons i is ih => simp [appendValueToBuilder_prim, ih]

/-- Helper: the rebuilt primitive column is exactly the source cells read at
the tracked indices, in order. -/
lemma buildColumn_prim (t : ArrowPrimType) (cells : List (Option ArrowPrimVal))
    (idxs : List Nat) :
    buildColumn (ArrowArray.prim t cells) idxs
      = ArrowArray.prim t (idxs.map (fun i => cells.getD i none)) := by
  rw [buildColumn, emptyBuilderOf]
  simpa using buildColumn_prim_loop t cells idxs []

/-- C6: a null source cell is appended to the column builder as null, never
as a default value, and consequently a cell of the rebuilt primitive column
at view position j is null whenever the source cell at the j-th tracked
original row index is null. -/
theorem export_preserves_null :
    (∀ (b col : ArrowArray) (pos : Nat), col.isNull pos = true →
      appendValueToBuilder b col pos = b.appendNull)
    ∧ (∀ (t : ArrowPrimType) (cells : List (Option ArrowPrimVal)) (idxs : List Nat) (j : Nat),
        j < idxs.length →
        (ArrowArray.prim t cells).isNull (idxs.getD j 0) = true →
        (buildColumn (ArrowArray.prim t cells) idxs).isNull j = true) := by
  constructor
  · exact appendValueToBuilder_of_null
  · intro t cells idxs j hj hnull
    have hidx : idxs.getD j 0 = idxs[j] := by
      rw [List.getD_eq_getElem?_getD, List.getElem?_eq_getElem hj]
      rfl
    rw [buildColumn_prim]
    simp only [ArrowArray.isNull] at hnull ⊢
    rw [List.getD_eq_getElem?_getD, List.getElem?_map, List.getElem?_eq_getElem hj]
    rw [hidx] at hnull
    simpa using hnull

/-- Witness for C6: appending the single null cell of an int64 column
appends null, and rebuilding that column over index list 0 keeps position 0
null. -/
theorem export_preserves_null_witness :
    appendValueToBuilder (ArrowArray.prim ArrowPrimType.int64 [])
        (ArrowArray.prim ArrowPrimType.int64 [none]) 0
      = (ArrowArray.prim ArrowPrimType.int64 []).appendNull
    ∧ (buildColumn (ArrowArray.prim ArrowPrimType.int64 [none]) [0]).isNull 0 = true := by
  constructor
  · exact export_preserves_null.1 (ArrowArray.prim ArrowPrimType.int64 [])
      (ArrowArray.prim ArrowPrimType.int64 [none]) 0 (by rfl)
  · exact export_preserves_null.2 ArrowPrimType.int64 [none] [0] 0 (by decide) (by rfl)

/-- Helper: a cell of a column whose type the dispatcher does not recognize
is appended as null, whether or not the source slot was null. -/
lemma appendValueToBuilder_other (b : ArrowArray) (tname : GoStr) (valid : List Bool)
    (pos : Nat) :
    appendValueToBuilder b (ArrowArray.otherArr tname valid) pos = b.appendNull := by
  rw [appendValueToBuilder.eq_def]
  by_cases h : (ArrowArray.otherArr tname valid).isNull pos
  · simp [h]
  · simp only [h]
    cases b <;> simp

/-- Helper: the build loop over an unrecognized-type column, for an
arbitrary accumulated validity list. -/
lemma buildColumn_other_loop (tname : GoStr) (valid : List Bool) (idxs : List Nat)
    (acc : List Bool) :
    idxs.foldl (fun b i => appendValueToBuilder b (ArrowArray.otherArr tname valid) i)
        (ArrowArray.otherArr tname acc)
      = ArrowArray.otherArr tname (acc ++ List.replicate idxs.length false) := by
  induction idxs generalizing acc with
  | nil => simp
  | cons i is ih =>
    rw [List.foldl_cons, appendValueToBuilder_other]
    simp only [ArrowArray.appendNull]
    rw [ih (acc ++ [false]), List.append_assoc]
    simp [List.replicate_succ]

/-- C7: every cell of a column whose declared type the export copy
dispatcher does not recognize is copied as null, and rebuilding such a
column always succeeds, producing an all-null column of the same declared
type with one slot per tracked row index. -/
theorem export_failsoft_unknown_type :
    (∀ (b : ArrowArray) (tname : GoStr) (valid : List Bool) (pos : Nat),
      appendValueToBuilder b (ArrowArray.otherArr tname valid) pos = b.appendNull)
    ∧ (∀ (tname : GoStr) (valid : List Bool) (idxs : List Nat),
      buildColumn (ArrowArray.otherArr tname valid) idxs
        = ArrowArray.otherArr tname (List.replicate idxs.length false)) := by
  constructor
  · exact appendValueToBuilder_other
  · intro tname valid idxs
    rw [buildColumn, emptyBuilderOf]
    simpa using buildColumn_other_loop tname valid idxs []

/-- Helper: in both branches of filterRows the projected data and the kept
index list have the same length. -/
lemma filterRows_length_eq (qp : QueryParser) (header : List GoStr)
    (rows : List (List GoStr)) (query : Option Query) (cols : List Nat) :
    (filterRows qp header rows query cols).1.length
      = (filterRows qp header rows query cols).2.length := by
  cases query with
  | none => simp [filterRows]
  | some q =>
    by_cases h : q.Expressions = []
    · simp [filterRows, h]
    · simp [filterRows, h]

/-- C8: exporting a view whose tracked visible row set is empty fails with
the empty-data error and produces no table; the length hypothesis links the
filtered rows to the tracked indices, an invariant applyFilters always
establishes (filterRows_length_eq). -/
theorem export_empty_rows_fails (d : Data)
    (h1 : d.filteredRowIndices = [])
    (h2 : d.filteredData.length = d.filteredRowIndices.length) :
    createFilteredArrowTable d = Except.error ExportErr.emptyData := by
  have hempty : d.filteredData = [] := by
    rw [h1] at h2
    simpa using List.length_eq_zero.mp (by simpa using h2)
  simp [createFilteredArrowTable, hempty]

/-- Witness for C8: a fully empty browser state fails the export with the
empty-data error. -/
theorem export_empty_rows_fails_witness :
    createFilteredArrowTable ⟨[], [], [], [], [], [], []⟩
      = Except.error ExportErr.emptyData :=
  export_empty_rows_fails ⟨[], [], [], [], [], [], []⟩ rfl rfl

/-- Helper: a blank query string parses to no query and no error. -/
lemma ParseQuery_blank (qp : QueryParser) (s : GoStr) (h : trimSpace s = []) :
    ParseQuery qp s = Except.ok none := by
  unfold ParseQuery
  rw [if_pos h]

/-- C9: a blank (empty or whitespace-only) query string parses to no query
and no error; EvaluateRow on an absent query, or on a query with no
expressions, returns true for every row; and applyFilters on a blank search
text sets the visible row indices to all original rows in order. -/
theorem blank_query_restores_all_rows :
    (∀ (qp : QueryParser) (s : GoStr), trimSpace s = [] →
      ParseQuery qp s = Except.ok none)
    ∧ (∀ (qp : QueryParser) (row headers : List GoStr),
      EvaluateRow qp none row headers = true)
    ∧ (∀ (qp : QueryParser) (q : Query) (row headers : List GoStr), q.Expressions = [] →
      EvaluateRow qp (some q) row headers = true)
    ∧ (∀ (env : FilterEnv) (checked : GoStr → Bool) (s : GoStr), trimSpace s = [] →
      (applyFilters env checked s).dataItem.filteredRowIndices
        = List.range env.dataItem.data.length) := by
  refine ⟨?_, ?_, ?_, ?_⟩
  · intro qp s h
    exact ParseQuery_blank qp s h
  · intro qp row headers
    rfl
  · intro qp q row headers h
    cases q with
    | mk es ops => simp at h; subst h; simp [EvaluateRow]
  · intro env checked s h
    have hparse : ParseQuery (NewQueryParser env.dataItem.header) (trimSpace s)
        = Except.ok none :=
      ParseQuery_blank _ _ (by rw [h]; rfl)
    simp [applyFilters, hparse, filterRows]

/-- Witness for C9 at concrete inputs: a whitespace-only search over a
one-column, two-row table parses to no query and restores both rows. -/
theorem blank_query_restores_all_rows_witness :
    ParseQuery (NewQueryParser [gs "price"]) (gs "   ") = Except.ok none
    ∧ EvaluateRow (NewQueryParser [gs "price"]) none [gs "1"] [gs "price"] = true
    ∧ EvaluateRow (NewQueryParser [gs "price"]) (some ⟨[], []⟩) [gs "1"] [gs "price"] = true
    ∧ (applyFilters
          ⟨⟨[[gs "1"], [gs "2"]], [gs "price"], [], [], [], [], []⟩, none⟩
          (fun _ => true) (gs "   ")).dataItem.filteredRowIndices = [0, 1] := by
  refine ⟨?_, ?_, ?_, ?_⟩
  · exact blank_query_restores_all_rows.1 (NewQueryParser [gs "price"]) (gs "   ") (by decide)
  · exact blank_query_restores_all_rows.2.1 (NewQueryParser [gs "price"]) [gs "1"] [gs "price"]
  · exact blank_query_restores_all_rows.2.2.1 (NewQueryParser [gs "price"]) ⟨[], []⟩
      [gs "1"] [gs "price"] rfl
  · rw [blank_query_restores_all_rows.2.2.2
      ⟨⟨[[gs "1"], [gs "2"]], [gs "price"], [], [], [], [], []⟩, none⟩
      (fun _ => true) (gs "   ") (by decide)]
    rfl

/-- Helper: the loop of EvaluateRow is the left fold of the operator list
zipped with the remaining expressions. -/
lemma evalOpsLoop_eq_foldl (qp : QueryParser) (row headers : List GoStr)
    (ops : List LogicalOp) (es : List Expression) (acc : Bool) :
    evalOpsLoop qp row headers acc ops es =
      (ops.zip es).foldl
        (fun r p => applyLogic p.1 r (evaluateExpression qp p.2 row headers)) acc := by
  induction ops generalizing es acc with
  | nil => simp [evalOpsLoop]
  | cons op ops ih =>
    cases es with
    | nil => simp [evalOpsLoop]
    | cons e es => simp [evalOpsLoop, ih]

/-- C1: for a query with N expressions and N-1 logical operators,
EvaluateRow is the strict left-to-right fold: it seeds the running result
with expression 0 and combines it with each subsequent expression under the
corresponding AND/OR operator, with no precedence. -/
theorem evaluate_row_left_to_right (qp : QueryParser) (q : Query)
    (row headers : List GoStr) (e0 : Expression) (rest : List Expression)
    (hexp : q.Expressions = e0 :: rest)
    (hops : q.LogicOps.length = rest.length) :
    EvaluateRow qp (some q) row headers =
      (q.LogicOps.zip rest).foldl
        (fun acc p => applyLogic p.1 acc (evaluateExpression qp p.2 row headers))
        (evaluateExpression qp e0 row headers) := by
  cases rest with
  | nil =>
    have hops2 : q.LogicOps = [] := List.length_eq_zero.mp (by simpa using hops)
    simp [EvaluateRow, hexp, hops2]
  | cons e1 rest2 =>
    simp [EvaluateRow, hexp, evalOpsLoop_eq_foldl]

/-- Witness for C1: the three-expression query a greater-equal 18 AND a
less 65 OR a equal 99 evaluated on the single-cell row 64 equals its
explicit left fold; both sides evaluate to true. -/
theorem evaluate_row_left_to_right_witness :
    EvaluateRow (NewQueryParser [gs "a"])
        (some ⟨[⟨gs "a", CompOp.OpGreaterEqual, gs "18"⟩,
                ⟨gs "a", CompOp.OpLess, gs "65"⟩,
                ⟨gs "a", CompOp.OpEqual, gs "99"⟩],
               [LogicalOp.LogicAND, LogicalOp.LogicOR]⟩)
        [gs "64"] [gs "a"]
      = ([LogicalOp.LogicAND, LogicalOp.LogicOR].zip
            [⟨gs "a", CompOp.OpLess, gs "65"⟩, ⟨gs "a", CompOp.OpEqual, gs "99"⟩]).foldl
          (fun acc p => applyLogic p.1 acc
            (evaluateExpression (NewQueryParser [gs "a"]) p.2 [gs "64"] [gs "a"]))
          (evaluateExpression (NewQueryParser [gs "a"])
            ⟨gs "a", CompOp.OpGreaterEqual, gs "18"⟩ [gs "64"] [gs "a"]) :=
  evaluate_row_left_to_right (NewQueryParser [gs "a"])
    ⟨[⟨gs "a", CompOp.OpGreaterEqual, gs "18"⟩,
      ⟨gs "a", CompOp.OpLess, gs "65"⟩,
      ⟨gs "a", CompOp.OpEqual, gs "99"⟩],
     [LogicalOp.LogicAND, LogicalOp.LogicOR]⟩
    [gs "64"] [gs "a"]
    ⟨gs "a", CompOp.OpGreaterEqual, gs "18"⟩
    [⟨gs "a", CompOp.OpLess, gs "65"⟩, ⟨gs "a", CompOp.OpEqual, gs "99"⟩]
    rfl rfl

/-- Counterexample to C10 as stated: the expression text >=1 begins with an
operator character, yet parseExpression raises an unknown-column error
instead of treating the text as a bare contains-term: the symbol = is found
at position 1, making the column name the single character > which is not a
known column. -/
theorem leading_operator_counterexample :
    parseExpression (NewQueryParser [gs "price"]) (gs ">=1")
      = Except.error (ParseErr.unknownColumn ['>']) := by
  rfl

/-- Helper: the operator search fails when no operator symbol occurs at a
strictly positive position in the text. -/
lemma findOp_none (s : GoStr) (l : List (CompOp × GoStr))
    (h : ∀ p ∈ l, (goIndex s p.2).getD 0 = 0) : findOp s l = none := by
  induction l with
  | nil => rfl
  | cons p rest ih =>
    obtain ⟨op, sym⟩ := p
    have hp := h ⟨op, sym⟩ (by simp)
    have hrest := ih (fun q hq => h q (by simp [hq]))
    cases hgi : goIndex s sym with
    | none => simp [findOp, hgi, hrest]
    | some i =>
      have hi : i = 0 := by simpa [hgi] using hp
      simp [findOp, hgi, hi, hrest]

/-- C10 (amended): parseExpression recognizes an operator only at a first
occurrence strictly after position zero; when no operator symbol of the
table occurs at a positive position in the trimmed text (as for =value or
>10, whose only operator symbols sit at position zero), the whole trimmed
text becomes, without error, a bare case-insensitive contains-term over all
columns.  A text beginning with an operator character can still contain a
different operator symbol later, so the original unrestricted claim fails
(leading_operator_counterexample). -/
theorem leading_operator_bare_term (qp : QueryParser) (exprStr : GoStr)
    (h : ∀ p ∈ operatorList, (goIndex (trimSpace exprStr) p.2).getD 0 = 0) :
    parseExpression qp exprStr
      = Except.ok ⟨[], CompOp.OpContains, trimSpace exprStr⟩ := by
  have hf := findOp_none (trimSpace exprStr) operatorList h
  simp only [parseExpression, hf]

/-- Witness for C10 (amended) at the concrete text =value: every operator
symbol either misses the text or sits at position zero, and the result is
the bare contains-term =value. -/
theorem leading_operator_bare_term_witness :
    parseExpression (NewQueryParser [gs "price"]) (gs "=value")
      = Except.ok ⟨[], CompOp.OpContains, trimSpace (gs "=value")⟩ :=
  leading_operator_bare_term (NewQueryParser [gs "price"]) (gs "=value") (by decide)

/-- Counterexample to C3 as stated: the query price > with a comparison
operator and no right-hand value does not fail: it parses successfully into
a single greater-than comparison against the empty value string. -/
theorem missing_value_parses_counterexample :
    ParseQuery (NewQueryParser [gs "price"]) (gs "price >")
      = Except.ok (some ⟨[⟨gs "price", CompOp.OpGreater, []⟩], []⟩) := by
  rfl

/-- Helper: the kept row indices do not depend on the visible-column
projection. -/
lemma filterRows_snd_eq (qp : QueryParser) (header : List GoStr)
    (rows : List (List GoStr)) (query : Option Query) (cols : List Nat) :
    (filterRows qp header rows query cols).2 = (filterRows qp header rows query []).2 := by
  cases query with
  | none => simp [filterRows]
  | some q =>
    by_cases h : q.Expressions = []
    · simp [filterRows, h]
    · simp [filterRows, h]

/-- C3 (amended): when the submitted search text fails to parse — as a
reference to a nonexistent column such as bogus = 1 does, surfaced as the
invalid-filter error — applyFilters keeps filtering with the last valid
query, so the visible row indices produced by the previous valid filter are
unchanged.  A query with an operator but no right-hand value, such as
price >, is not invalid: it parses with an empty value
(missing_value_parses_counterexample). -/
theorem invalid_query_preserves_rows (env : FilterEnv) (checked : GoStr → Bool) (s : GoStr)
    (herr : isErr (ParseQuery (NewQueryParser env.dataItem.header) (trimSpace s)) = true)
    (hprev : env.dataItem.filteredRowIndices
      = rowIndicesFor env.dataItem.header env.dataItem.data env.lastValidQuery) :
    (applyFilters env checked s).dataItem.filteredRowIndices
      = env.dataItem.filteredRowIndices := by
  cases hp : ParseQuery (NewQueryParser env.dataItem.header) (trimSpace s) with
  | ok q => rw [hp] at herr; simp [isErr] at herr
  | error e =>
    simp only [applyFilters, hp]
    rw [filterRows_snd_eq, hprev]
    rfl

/-- Witness for C3 (amended): over a one-column table with rows 3 and 1 and
the previously accepted filter price greater than 2 (visible rows: index 0
only), submitting the invalid query bogus = 1 fails to parse and leaves the
visible row indices at index 0. -/
theorem invalid_query_preserves_rows_witness :
    isErr (ParseQuery (NewQueryParser [gs "price"]) (trimSpace (gs "bogus = 1"))) = true
    ∧ (applyFilters
        ⟨⟨[[gs "3"], [gs "1"]], [gs "price"], [], [[gs "3"]], [gs "price"], [0], [0]⟩,
          some ⟨[⟨gs "price", CompOp.OpGreater, gs "2"⟩], []⟩⟩
        (fun _ => true) (gs "bogus = 1")).dataItem.filteredRowIndices = [0] := by
  constructor
  · rfl
  · exact invalid_query_preserves_rows
      ⟨⟨[[gs "3"], [gs "1"]], [gs "price"], [], [[gs "3"]], [gs "price"], [0], [0]⟩,
        some ⟨[⟨gs "price", CompOp.OpGreater, gs "2"⟩], []⟩⟩
      (fun _ => true) (gs "bogus = 1") (by rfl) (by rfl)

/-- C2: for an expression with an explicit column that resolves to an
in-range column index, evaluateExpression agrees with the specification's
description of the comparison: equality and inequality are case-insensitive
string equality of cell and value, tilde is case-insensitive substring
containment of the value in the cell, and the four ordering operators
compare numerically when both sides parse as numbers and otherwise fall
back to case-insensitive lexicographic comparison. -/
theorem evaluate_expression_explicit_column (qp : QueryParser) (expr : Expression)
    (row headers : List GoStr) (colIdx : Nat)
    (hname : expr.ColumnName ≠ [])
    (hlook : mapLookup qp.columnMap (lowerStr expr.ColumnName) = some colIdx)
    (hlt : colIdx < row.length) :
    evaluateExpression qp expr row headers
      = specCompareCell (row.getD colIdx []) expr.Value expr.Operator := by
  unfold evaluateExpression
  rw [if_neg (by simp [hname]), hlook]
  have hnotle : ¬ row.length ≤ colIdx := by omega
  cases hop : expr.Operator
  · simp [hnotle, specCompareCell, eqFold]
  · simp [hnotle, specCompareCell, eqFold]
  · cases h1 : goParseFloat (trimSpace (row.getD colIdx [])) <;>
      cases h2 : goParseFloat (trimSpace expr.Value) <;>
      simp [hnotle, specCompareCell, compareNumeric, compareString, h1, h2]
  · cases h1 : goParseFloat (trimSpace (row.getD colIdx [])) <;>
      cases h2 : goParseFloat (trimSpace expr.Value) <;>
      simp [hnotle, specCompareCell, compareNumeric, compareString, h1, h2]
  · cases h1 : goParseFloat (trimSpace (row.getD colIdx [])) <;>
      cases h2 : goParseFloat (trimSpace expr.Value) <;>
      simp [hnotle, specCompareCell, compareNumeric, compareString, h1, h2]
  · cases h1 : goParseFloat (trimSpace (row.getD colIdx [])) <;>
      cases h2 : goParseFloat (trimSpace expr.Value) <;>
      simp [hnotle, specCompareCell, compareNumeric, compareString, h1, h2]
  · simp [hnotle, specCompareCell]

/-- Witness for C2: the expression price greater-equal 10 against the row
with cell 10.5 evaluates as the specification comparison does (numerically,
since both sides parse). -/
theorem evaluate_expression_explicit_column_witness :
    evaluateExpression (NewQueryParser [gs "price"])
        ⟨gs "price", CompOp.OpGreaterEqual, gs "10"⟩ [gs "10.5"] [gs "price"]
      = specCompareCell (([gs "10.5"] : List GoStr).getD 0 []) (gs "10")
          CompOp.OpGreaterEqual :=
  evaluate_expression_explicit_column (NewQueryParser [gs "price"])
    ⟨gs "price", CompOp.OpGreaterEqual, gs "10"⟩ [gs "10.5"] [gs "price"] 0
    (by decide) (by rfl) (by decide)

/-- Helper: the parse loop fails exactly when some non-operator part fails
to parse as an expression. -/
lemma parsePartsLoop_isErr (qp : QueryParser) (parts : List QueryPart) :
    ∀ (exprs : List Expression) (ops : List LogicalOp),
    (isErr (parsePartsLoop qp parts exprs ops) = true ↔
      ∃ p ∈ parts, p.isOperator = false ∧ isErr (parseExpression qp p.text) = true) := by
  induction parts with
  | nil => intro exprs ops; simp [parsePartsLoop, isErr]
  | cons p rest ih =>
    intro exprs ops
    by_cases hop : p.isOperator = true
    · simp only [parsePartsLoop, hop, if_true]
      split_ifs with hA hB
      · rw [ih]
        simp [hop]
      · rw [ih]
        simp [hop]
      · rw [ih]
        simp [hop]
    · have hop2 : p.isOperator = false := by simpa using hop
      simp only [parsePartsLoop, hop2, Bool.false_eq_true, if_false]
      cases hpe : parseExpression qp p.text with
      | error e => simp [isErr, hpe, hop2]
      | ok expr =>
        rw [ih]
        simp [hop2, hpe, isErr]

/-- Helper: on success the parse loop returns as many expressions as there
are non-operator parts and as many logical operators as there are AND/OR
operator parts, on top of what was already accumulated. -/
lemma parsePartsLoop_ok_lengths (qp : QueryParser) (parts : List QueryPart) :
    ∀ (exprs : List Expression) (ops : List LogicalOp) (es : List Expression)
      (os : List LogicalOp),
    parsePartsLoop qp parts exprs ops = Except.ok (es, os) →
    es.length = exprs.length + (parts.filter (fun p => ! p.isOperator)).length ∧
    os.length = ops.length + (parts.filter
      (fun p => p.isOperator
        && (upperStr p.text = ['A', 'N', 'D'] || upperStr p.text = ['O', 'R']))).length := by
  induction parts with
  | nil =>
    intro exprs ops es os h
    simp only [parsePartsLoop] at h
    injection h with h2
    injection h2 with he ho
    simp [← he, ← ho]
  | cons p rest ih =>
    intro exprs ops es os h
    by_cases hop : p.isOperator = true
    · simp only [parsePartsLoop, hop, if_true] at h
      by_cases hA : upperStr p.text = ['A', 'N', 'D']
      · rw [if_pos hA] at h
        have := ih exprs (ops ++ [LogicalOp.LogicAND]) es os h
        simp only [List.filter_cons, hop, hA] at *
        simp at this ⊢
        omega
      · rw [if_neg hA] at h
        by_cases hB : upperStr p.text = ['O', 'R']
        · rw [if_pos hB] at h
          have := ih exprs (ops ++ [LogicalOp.LogicOR]) es os h
          simp only [List.filter_cons, hop, hA, hB] at *
          simp at this ⊢
          omega
        · rw [if_neg hB] at h
          have := ih exprs ops es os h
          simp only [List.filter_cons, hop, hA, hB] at *
          simp at this ⊢
          omega
    · have hop2 : p.isOperator = false := by simpa using hop
      simp only [parsePartsLoop, hop2, Bool.false_eq_true, if_false] at h
      cases hpe : parseExpression qp p.text with
      | error e => rw [hpe] at h; exact absurd h (by simp)
      | ok expr =>
        rw [hpe] at h
        have := ih (exprs ++ [expr]) ops es os h
        simp only [List.filter_cons, hop2] at *
        simp at this ⊢
        omega

/-- Helper: the per-part error existential transfers to the expression part
texts. -/
lemma exists_exprPartText_iff (qp : QueryParser) (s : GoStr) :
    (∃ t ∈ exprPartTexts s, isErr (parseExpression qp t) = true) ↔
      ∃ p ∈ splitByLogicOps s, p.isOperator = false
        ∧ isErr (parseExpression qp p.text) = true := by
  simp only [exprPartTexts, List.mem_map, List.mem_filter]
  constructor
  · rintro ⟨t, ⟨p, ⟨hp, hpo⟩, hpt⟩, ht⟩
    exact ⟨p, hp, by simpa using hpo, by rw [hpt]; exact ht⟩
  · rintro ⟨p, hp, hpo, hpe⟩
    exact ⟨p.text, ⟨p, ⟨hp, by simpa using hpo⟩, rfl⟩, hpe⟩

/-- Helper: full characterization of ParseQuery failure: a non-blank query
fails exactly when tokenization yields no parts at all, some expression
part fails to parse, or the operator count is not one less than the
expression count; a blank query never fails. -/
lemma ParseQuery_isErr_characterization (qp : QueryParser) (s : GoStr) :
    isErr (ParseQuery qp s) = true ↔
      (trimSpace s ≠ [] ∧
        (splitByLogicOps s = []
          ∨ (∃ t ∈ exprPartTexts s, isErr (parseExpression qp t) = true)
          ∨ logicOpPartCount s + 1 ≠ (exprPartTexts s).length)) := by
  by_cases htrim : trimSpace s = []
  · simp [ParseQuery_blank qp s htrim, isErr, htrim]
  · rw [exists_exprPartText_iff]
    by_cases hsplit : splitByLogicOps s = []
    · simp only [ParseQuery]
      rw [if_neg htrim, if_pos hsplit]
      exact iff_of_true rfl ⟨htrim, Or.inl hsplit⟩
    · simp only [ParseQuery]
      rw [if_neg htrim, if_neg hsplit]
      cases hloop : parsePartsLoop qp (splitByLogicOps s) [] [] with
      | error e =>
        have hex := (parsePartsLoop_isErr qp (splitByLogicOps s) [] []).mp
          (by rw [hloop]; rfl)
        exact iff_of_true rfl ⟨htrim, Or.inr (Or.inl hex)⟩
      | ok pr =>
        obtain ⟨es, os⟩ := pr
        have hnoerr : ¬ ∃ p ∈ splitByLogicOps s, p.isOperator = false
            ∧ isErr (parseExpression qp p.text) = true := by
          rw [← parsePartsLoop_isErr qp (splitByLogicOps s) [] []]
          rw [hloop]
          simp [isErr]
        obtain ⟨hlen1, hlen2⟩ :=
          parsePartsLoop_ok_lengths qp (splitByLogicOps s) [] [] es os hloop
        simp only [List.length_nil, Nat.zero_add] at hlen1 hlen2
        have htexts : (exprPartTexts s).length
            = ((splitByLogicOps s).filter (fun p => ! p.isOperator)).length := by
          simp [exprPartTexts]
        have hcount : logicOpPartCount s
            = ((splitByLogicOps s).filter
              (fun p => p.isOperator
                && (upperStr p.text = ['A', 'N', 'D'] || upperStr p.text = ['O', 'R']))).length :=
          rfl
        simp only []
        by_cases hmm : (os.length : Int) ≠ (es.length : Int) - 1
        · rw [if_pos hmm]
          exact iff_of_true rfl
            ⟨htrim, Or.inr (Or.inr (by rw [htexts, hcount]; omega))⟩
        · rw [if_neg hmm]
          push_neg at hmm
          apply iff_of_false
          · simp [isErr]
          · rintro ⟨-, h1 | h2 | h3⟩
            · exact hsplit h1
            · exact hnoerr h2
            · rw [htexts, hcount] at h3
              omega

/-- Helper: parseExpression fails exactly when an operator symbol is found
at a positive position and the resulting column name is not a known column
under case-insensitive lookup. -/
lemma parseExpression_isErr_iff (qp : QueryParser) (t : GoStr) :
    isErr (parseExpression qp t) = true ↔
      ∃ op sym idx, findOp (trimSpace t) operatorList = some (op, sym, idx) ∧
        mapLookup qp.columnMap (lowerStr (trimSpace ((trimSpace t).take idx))) = none := by
  unfold parseExpression
  cases hf : findOp (trimSpace t) operatorList with
  | none => simp [isErr, hf]
  | some triple =>
    obtain ⟨op, sym, idx⟩ := triple
    cases hl : mapLookup qp.columnMap (lowerStr (trimSpace ((trimSpace t).take idx))) with
    | some j => simp [isErr, hf, hl]
    | none =>
      simp [isErr, hf, hl]
      exact ⟨op, sym, idx, ⟨rfl, rfl, rfl⟩, hl⟩

/-- C4: ParseQuery fails exactly when the query is non-blank and either
tokenizes to no parts, contains an expression part that fails to parse
(which happens exactly when an operator is recognized and the column name
is unknown under case-insensitive lookup), or carries an operator count
different from the expression count minus one; and whenever it fails no
query object is produced. -/
theorem parse_query_error_characterization (qp : QueryParser) (s : GoStr) :
    (isErr (ParseQuery qp s) = true ↔
      (trimSpace s ≠ [] ∧
        (splitByLogicOps s = []
          ∨ (∃ t ∈ exprPartTexts s, isErr (parseExpression qp t) = true)
          ∨ logicOpPartCount s + 1 ≠ (exprPartTexts s).length)))
    ∧ (∀ q : Option Query, isErr (ParseQuery qp s) = true → ParseQuery qp s ≠ Except.ok q)
    ∧ (∀ t : GoStr, isErr (parseExpression qp t) = true ↔
        ∃ op sym idx, findOp (trimSpace t) operatorList = some (op, sym, idx) ∧
          mapLookup qp.columnMap (lowerStr (trimSpace ((trimSpace t).take idx))) = none) := by
  refine ⟨ParseQuery_isErr_characterization qp s, ?_, fun t => parseExpression_isErr_iff qp t⟩
  intro q herr hok
  rw [hok] at herr
  simp [isErr] at herr

/-- Witness for C4 at concrete inputs: with the single known column price,
the query bogus = 1 is an error (unknown column), the lone word AND is an
error (zero expressions against one operator), and price = 1 parses without
error. -/
theorem parse_query_error_characterization_witness :
    isErr (ParseQuery (NewQueryParser [gs "price"]) (gs "bogus = 1")) = true
    ∧ isErr (ParseQuery (NewQueryParser [gs "price"]) (gs "AND")) = true
    ∧ isErr (ParseQuery (NewQueryParser [gs "price"]) (gs "price = 1")) = false
    ∧ ParseQuery (NewQueryParser [gs "price"]) (gs "bogus = 1")
        ≠ Except.ok (some ⟨[⟨gs "bogus", CompOp.OpEqual, gs "1"⟩], []⟩) := by
  refine ⟨?_, ?_, ?_, ?_⟩
  · exact (parse_query_error_characterization (NewQueryParser [gs "price"])
      (gs "bogus = 1")).1.mpr (by refine ⟨by decide, Or.inr (Or.inl ?_)⟩; decide)
  · exact (parse_query_error_characterization (NewQueryParser [gs "price"])
      (gs "AND")).1.mpr (by refine ⟨by decide, Or.inr (Or.inr ?_)⟩; decide)
  · rfl
  · exact (parse_query_error_characterization (NewQueryParser [gs "price"])
      (gs "bogus = 1")).2.1 (some ⟨[⟨gs "bogus", CompOp.OpEqual, gs "1"⟩], []⟩) (by rfl)
